import Mathlib

/-!
Verification development for the univaegis document-verification backend.

The embedding models the two pure core components of the repository:

* `OCREngine.extract_data` (src/backend/app/ocr_engine.py): regex-cascade
  extraction of a grade string, a student name and a monetary balance from
  joined OCR text fragments, plus a heuristic confidence score.
* `EligibilityEngine.check_eligibility` (src/backend/app/eligibility.py):
  the admissions-eligibility decision over an extracted grade value and a
  test (IELTS) score.

Modelling conventions:

* Python strings are `List Char`; character classes are modelled over the
  ASCII ranges the program's regexes and inputs use.
* Python floats are modelled exactly: parsed decimal literals become
  rationals, and the special values are carried by the `PFloat` type
  (`fin q`, `inf`, `ninf`, `nan`) with Python's comparison semantics.
  Binary rounding of IEEE doubles and the underscore digit separators of
  Python numeric literals are not modelled; no claim depends on them.
* `round(x, 2)` is modelled as round-half-up on rationals.  Python uses
  round-half-even on binary doubles; for the confidence formula a tie
  (a value with fractional part exactly 1/2 after scaling by 100) is
  impossible, so the two conventions agree on every reachable value.
* The three `re.search` cascades are modelled by a small backtracking
  regex interpreter (`mrun`/`reSearch`) whose alternative ordering is the
  one Python's engine uses: leftmost starting position first, greedy
  quantifiers, left alternative first.  Each source pattern is transcribed
  as a (prefix, capture group, suffix) triple of regex terms; all three
  cascades are compiled with `re.IGNORECASE`, so literal letters are
  modelled case-insensitively and the classes `[A-Z]`/`[a-zA-Z]` both
  denote ASCII letters.
-/

abbrev Str := List Char

/-- Python ASCII whitespace (the characters `str.strip`, `\s` and
`str.split()` treat as whitespace in the ASCII range). -/
def wsC (c : Char) : Bool :=
  c == ' ' || c == '\t' || c == '\n' || c == '\r' || c == '\x0b' || c == '\x0c'

/-- `\d` / `[0-9]`. -/
def digC (c : Char) : Bool := '0' ≤ c && c ≤ '9'

/-- ASCII letter: what `[A-Z]` and `[a-zA-Z]` match under `re.IGNORECASE`. -/
def letC (c : Char) : Bool := ('A' ≤ c && c ≤ 'Z') || ('a' ≤ c && c ≤ 'z')

/-- ASCII uppercase letter (Python `str.isupper` on one ASCII character). -/
def upC (c : Char) : Bool := 'A' ≤ c && c ≤ 'Z'

/-- `[:\s\-]`. -/
def colWsDashC (c : Char) : Bool := c == ':' || wsC c || c == '-'

/-- `[:\s]`. -/
def colWsC (c : Char) : Bool := c == ':' || wsC c

/-- `[0-9,]`. -/
def digCommaC (c : Char) : Bool := digC c || c == ','

/-- Python `str.strip()` (ASCII whitespace). -/
def stripWs (s : Str) : Str :=
  ((s.dropWhile wsC).reverse.dropWhile wsC).reverse

/-- Python `str.replace(c, "")`: delete every occurrence of one character. -/
def remAll (c : Char) (s : Str) : Str := s.filter (fun x => x ≠ c)

/-- ASCII lowercasing, Python `str.lower` on the characters used here. -/
def toLowerS (s : Str) : Str := s.map Char.toLower

/-- Python `str.split()`: split on runs of whitespace, no empty pieces.
Auxiliary: `w` is the reversed current word. -/
def splitWsAux : Str → Str → List Str
  | [], w => if w = [] then [] else [w.reverse]
  | c :: t, w =>
    if wsC c then
      (if w = [] then splitWsAux t [] else w.reverse :: splitWsAux t [])
    else
      splitWsAux t (c :: w)

def splitWs (s : Str) : List Str := splitWsAux s []

/-- Python `sep.join(parts)` for a one-character separator. -/
def joinSep (c : Char) : List Str → Str
  | [] => []
  | [s] => s
  | s :: t :: rest => s ++ c :: joinSep c (t :: rest)

/-- Boolean prefix test. -/
def isPreB : Str → Str → Bool
  | [], _ => true
  | _ :: _, [] => false
  | a :: s, b :: t => a == b && isPreB s t

/-- Python substring containment `needle in hay`. -/
def containsSub (needle : Str) : Str → Bool
  | [] => needle.isEmpty
  | c :: t => isPreB needle (c :: t) || containsSub needle t

/-- Value of a digit string (most significant first). -/
def digitsVal (s : Str) : Nat :=
  s.foldl (fun acc c => acc * 10 + (c.toNat - 48)) 0

/-- A Python float value: finite (held exactly as a rational), the two
infinities, or nan. -/
inductive PFloat where
  | fin (q : ℚ)
  | inf
  | ninf
  | nan
deriving DecidableEq

/-- Python `>` on floats: any comparison involving nan is false. -/
def PFloat.gtB : PFloat → PFloat → Bool
  | .nan, _ => false
  | _, .nan => false
  | .fin a, .fin b => decide (b < a)
  | .fin _, .inf => false
  | .fin _, .ninf => true
  | .inf, .inf => false
  | .inf, _ => true
  | .ninf, _ => false

/-- Python `>=` on floats: any comparison involving nan is false. -/
def PFloat.geB : PFloat → PFloat → Bool
  | .nan, _ => false
  | _, .nan => false
  | .fin a, .fin b => decide (b ≤ a)
  | .fin _, .inf => false
  | .fin _, .ninf => true
  | .inf, _ => true
  | .ninf, .ninf => true
  | .ninf, _ => false

/-- Build the rational `m / d` (for `d ≠ 0`, both natural) directly in
lowest terms via `Rat.mk'`.  The arithmetic `Rat` instances normalize
through code the kernel cannot reduce; this constructor keeps every
parsed value kernel-computable. -/
def mkQn (m d : Nat) (hd : d ≠ 0) : ℚ :=
  have hdpos : 0 < d := Nat.pos_of_ne_zero hd
  have hgpos : 0 < m.gcd d := Nat.gcd_pos_of_pos_right m hdpos
  Rat.mk' ((m / m.gcd d : Nat) : Int) (d / m.gcd d)
    (Nat.ne_of_gt (Nat.div_pos (Nat.le_of_dvd hdpos (Nat.gcd_dvd_right m d)) hgpos))
    (by simpa using Nat.coprime_div_gcd_div_gcd hgpos)

/-- Build the rational `n / d` (for `d ≠ 0`) in lowest terms. -/
def mkQ (n : Int) (d : Nat) (hd : d ≠ 0) : ℚ :=
  if n < 0 then -(mkQn n.natAbs d hd) else mkQn n.natAbs d hd

/-- Split a string into its leading digit run and the rest. -/
def spanDigits (s : Str) : Str × Str := (s.takeWhile digC, s.dropWhile digC)

/-- Parse the exponent suffix of a float literal: either empty (exponent 0)
or `e`/`E`, an optional sign, and a nonempty digit run reaching the end. -/
def parseExp : Str → Option Int
  | [] => some 0
  | c :: t =>
    if c == 'e' || c == 'E' then
      match t with
      | '+' :: r => if r ≠ [] ∧ r.all digC then some ((digitsVal r : Int)) else none
      | '-' :: r => if r ≠ [] ∧ r.all digC then some (-(digitsVal r : Int)) else none
      | r => if r ≠ [] ∧ r.all digC then some ((digitsVal r : Int)) else none
    else none

/-- Parse an unsigned decimal float body `digits [. digits] [exponent]`;
at least one digit must be present in the mantissa. -/
def parseDec (s : Str) : Option ℚ :=
  let p1 := spanDigits s
  let p2 : Str × Str :=
    match p1.2 with
    | '.' :: rest => spanDigits rest
    | _ => ([], p1.2)
  if p1.1 = [] ∧ p2.1 = [] then none
  else
    match parseExp p2.2 with
    | none => none
    | some e =>
      let m := digitsVal (p1.1 ++ p2.1)
      let t : Int := e - p2.1.length
      some (if 0 ≤ t then mkQ ((m : Int) * ((10 ^ t.toNat : Nat) : Int)) 1 one_ne_zero
            else mkQ (m : Int) (10 ^ (-t).toNat) (pow_ne_zero _ (by norm_num)))

/-- Python `float(s)` on a string: strip whitespace, optional sign, then
either an `inf`/`infinity`/`nan` word (case-insensitive) or a decimal
literal.  Returns `none` where Python raises `ValueError`. -/
def pyFloat? (s0 : Str) : Option PFloat :=
  let s := stripWs s0
  let sb : Bool × Str :=
    match s with
    | '+' :: r => (false, r)
    | '-' :: r => (true, r)
    | r => (false, r)
  let lb := toLowerS sb.2
  if lb = "inf".data ∨ lb = "infinity".data then
    some (if sb.1 then PFloat.ninf else PFloat.inf)
  else if lb = "nan".data then some PFloat.nan
  else
    match parseDec sb.2 with
    | some q => some (.fin (if sb.1 then -q else q))
    | none => none

/-!
## A small backtracking regex interpreter

`mrun r s k` matches the regex term `r` against a prefix of `s` and calls
the continuation `k` on the remaining suffix; alternatives are tried in
Python's backtracking order (greedy quantifiers longest first, left
alternative first), and the first alternative on which the continuation
succeeds wins.  Repetition is only needed over single-character classes
(and the bounded `{1,3}` of the name patterns, which is desugared with
`opt`), so `star`/`plus` take a character predicate and cannot loop.
-/

inductive RE where
  | eps
  | ch (p : Char → Bool)
  | cat (a b : RE)
  | alt (a b : RE)
  | opt (a : RE)
  | star (p : Char → Bool)
  | plus (p : Char → Bool)

/-- All suffixes of `s` reachable by consuming a run of characters
satisfying `p`, ordered by the greedy preference: longest run first. -/
def starRests (p : Char → Bool) : Str → List Str
  | [] => [[]]
  | c :: s => if p c then starRests p s ++ [c :: s] else [c :: s]

/-- Try the continuation on each candidate suffix in order. -/
def tryEach (k : Str → Option α) : List Str → Option α
  | [] => none
  | s :: rest =>
    match k s with
    | some x => some x
    | none => tryEach k rest

def mrun : RE → Str → (Str → Option α) → Option α
  | .eps, s, k => k s
  | .ch _, [], _ => none
  | .ch p, c :: s, k => if p c then k s else none
  | .cat a b, s, k => mrun a s (fun s1 => mrun b s1 k)
  | .alt a b, s, k =>
    match mrun a s k with
    | some x => some x
    | none => mrun b s k
  | .opt a, s, k =>
    match mrun a s k with
    | some x => some x
    | none => k s
  | .star p, s, k => tryEach k (starRests p s)
  | .plus _, [], _ => none
  | .plus p, c :: s, k => if p c then tryEach k (starRests p s) else none

/-- One source regex with a single capturing group: the part before the
group, the group itself, and the part after it. -/
structure Pat where
  pre : RE
  grp : RE
  post : RE

/-- Attempt a match anchored at the start of `s`; on success return the
substring consumed by the capturing group of the first successful
backtracking path (Python's `match.group(1)`). -/
def matchAt (p : Pat) (s : Str) : Option Str :=
  mrun p.pre s fun s1 =>
    mrun p.grp s1 fun s2 =>
      mrun p.post s2 fun _ => some (s1.take (s1.length - s2.length))

/-- Python `re.search`: try successive starting positions left to right. -/
def reSearch (p : Pat) : Str → Option Str
  | [] => matchAt p []
  | c :: s =>
    match matchAt p (c :: s) with
    | some x => some x
    | none => reSearch p s

/-- Case-insensitive single character (a literal under `re.IGNORECASE`). -/
def lch (c : Char) : RE := .ch (fun x => x.toLower == c.toLower)

/-- Case-sensitive single character (for punctuation literals). -/
def cch (c : Char) : RE := .ch (fun x => x == c)

/-- Case-insensitive literal word. -/
def ilit (s : String) : RE := s.data.foldr (fun c r => .cat (lch c) r) .eps

/-- Right-nested concatenation of a list of terms. -/
def cats (l : List RE) : RE := l.foldr .cat .eps

/-!
## The three pattern cascades of `extract_data`
-/

/-- `(\d+\.?\d*)` — the numeric capture group of the grade patterns. -/
def numGrp : RE := cats [.plus digC, .opt (cch '.'), .star digC]

/-- `(\d{1,3}\.?\d*)` — the capture group of the bare-percent pattern. -/
def num13Grp : RE :=
  cats [.ch digC, .opt (.cat (.ch digC) (.opt (.ch digC))), .opt (cch '.'), .star digC]

/-- `C\.?G\.?P\.?A\.?` -/
def cgpaDots : RE :=
  cats [lch 'C', .opt (cch '.'), lch 'G', .opt (cch '.'), lch 'P', .opt (cch '.'),
        lch 'A', .opt (cch '.')]

/-- `G\.?P\.?A\.?` -/
def gpaDots : RE :=
  cats [lch 'G', .opt (cch '.'), lch 'P', .opt (cch '.'), lch 'A', .opt (cch '.')]

/-- The 12 grade patterns of `extract_data`, in source order. -/
def gpaPatterns : List Pat :=
  [ ⟨.cat (ilit "CGPA") (.star colWsDashC), numGrp, .eps⟩,
    ⟨cats [cch '(', ilit "CGPA", cch ')', .star colWsDashC], numGrp, .eps⟩,
    ⟨.cat cgpaDots (.star colWsDashC), numGrp, .eps⟩,
    ⟨.cat (ilit "GPA") (.star colWsDashC), numGrp, .eps⟩,
    ⟨.cat gpaDots (.star colWsDashC), numGrp, .eps⟩,
    ⟨.cat (ilit "Grade") (.star colWsDashC), numGrp, .eps⟩,
    ⟨cats [ilit "Final", .plus wsC, ilit "Grade", .star colWsDashC], numGrp, .eps⟩,
    ⟨.cat (ilit "Percentage") (.star colWsDashC), numGrp, .eps⟩,
    ⟨.eps, num13Grp, .cat (.star wsC) (cch '%')⟩,
    ⟨.cat (ilit "Percent") (.star colWsDashC), numGrp, .eps⟩,
    ⟨.cat (ilit "Score") (.star colWsDashC), numGrp, .eps⟩,
    ⟨.cat (ilit "Total") (.star colWsDashC), numGrp, .eps⟩ ]

/-- `[A-Z][a-zA-Z]+` under `IGNORECASE`: a word of two or more letters. -/
def wordRE : RE := .cat (.ch letC) (.plus letC)

/-- `(?:\s+[A-Z][a-zA-Z]+){1,3}` desugared greedily. -/
def wsWordRE : RE := .cat (.plus wsC) wordRE

def rep13 : RE := .cat wsWordRE (.opt (.cat wsWordRE (.opt wsWordRE)))

/-- `([A-Z][a-zA-Z]+(?:\s+[A-Z][a-zA-Z]+){1,3})` — the name capture. -/
def nameGrp : RE := .cat wordRE rep13

/-- The 3 name patterns of `extract_data`, in source order. -/
def namePatterns : List Pat :=
  [ ⟨cats [.opt (.cat (ilit "Student") (.plus wsC)), ilit "Name", .plus colWsC],
      nameGrp, .eps⟩,
    ⟨cats [ilit "Name", .plus wsC, ilit "of", .plus wsC,
           .opt (.cat (ilit "the") (.plus wsC)), ilit "Student", .plus colWsC],
      nameGrp, .eps⟩,
    ⟨.cat (ilit "Candidate") (.plus colWsC), nameGrp, .eps⟩ ]

/-- `(?:Rs\.?|INR|₹|\$)` — the (mandatory) currency marker. -/
def curRE : RE :=
  .alt (.cat (ilit "Rs") (.opt (cch '.')))
    (.alt (ilit "INR") (.alt (cch '₹') (cch '$')))

/-- `([0-9,]+\.?[0-9]*)` — the balance capture group. -/
def balGrp : RE := cats [.plus digCommaC, .opt (cch '.'), .star digC]

/-- Shared suffix of every balance pattern label: `[:\s]*` then the
currency marker then `\s*`. -/
def balTail : RE := cats [.star colWsC, curRE, .star wsC]

/-- The 7 balance patterns of `extract_data`, in source order. -/
def balPatterns : List Pat :=
  [ ⟨.cat (ilit "Balance") balTail, balGrp, .eps⟩,
    ⟨cats [ilit "Available", .plus wsC, ilit "Balance", balTail], balGrp, .eps⟩,
    ⟨cats [ilit "Current", .plus wsC, ilit "Balance", balTail], balGrp, .eps⟩,
    ⟨.cat (ilit "Amount") balTail, balGrp, .eps⟩,
    ⟨.cat (ilit "Total") balTail, balGrp, .eps⟩,
    ⟨cats [ilit "Fee", .opt (lch 's'), balTail], balGrp, .eps⟩,
    ⟨.cat (ilit "Tuition") balTail, balGrp, .eps⟩ ]

/-- Balance patterns as the specification's words describe them — the
currency marker *optional* rather than required.  This definition follows
the spec, not the source; it exists only to be compared with
`balPatterns`. -/
def balTailSpecOptionalCur : RE := cats [.star colWsC, .opt curRE, .star wsC]

def balPatternsSpecOptionalCur : List Pat :=
  [ ⟨.cat (ilit "Balance") balTailSpecOptionalCur, balGrp, .eps⟩,
    ⟨cats [ilit "Available", .plus wsC, ilit "Balance", balTailSpecOptionalCur], balGrp, .eps⟩,
    ⟨cats [ilit "Current", .plus wsC, ilit "Balance", balTailSpecOptionalCur], balGrp, .eps⟩,
    ⟨.cat (ilit "Amount") balTailSpecOptionalCur, balGrp, .eps⟩,
    ⟨.cat (ilit "Total") balTailSpecOptionalCur, balGrp, .eps⟩,
    ⟨cats [ilit "Fee", .opt (lch 's'), balTailSpecOptionalCur], balGrp, .eps⟩,
    ⟨.cat (ilit "Tuition") balTailSpecOptionalCur, balGrp, .eps⟩ ]

/-!
## `extract_data`
-/

/-- First `some` in a list of options (the `for … break` cascade shape). -/
def firstSome : List (Option α) → Option α
  | [] => none
  | o :: rest =>
    match o with
    | some x => some x
    | none => firstSome rest

/-- One step of the grade cascade: search the pattern, then accept the
captured string only if it parses as a float in `[0, 100]`. -/
def gpaStep (p : Pat) (text : Str) : Option Str :=
  match reSearch p text with
  | none => none
  | some cap =>
    match pyFloat? cap with
    | some (.fin v) => if 0 ≤ v ∧ v ≤ 100 then some cap else none
    | _ => none

def extractGpaText (text : Str) : Option Str :=
  firstSome (gpaPatterns.map (fun p => gpaStep p text))

/-- The stop words of the name cleaner (matched case-sensitively). -/
def stopWords : List Str :=
  ["University", "College", "Institute", "School", "Department",
   "Faculty", "Of", "The", "And", "CGPA", "GPA", "Grade"].map String.data

/-- Python `word[0].isupper() and word.isalpha()` (ASCII model). -/
def wordOk : Str → Bool
  | [] => false
  | c :: rest => upC c && (c :: rest).all letC

/-- The name-cleaning loop: walk the words left to right, stop at the
first stop word, keep only capitalized all-alphabetic words. -/
def cleanName : List Str → List Str
  | [] => []
  | w :: ws =>
    if w ∈ stopWords then []
    else if wordOk w then w :: cleanName ws
    else cleanName ws

/-- One step of the name cascade: search the pattern, clean the captured
run, accept only 2–4 cleaned words (joined with single spaces). -/
def nameStep (p : Pat) (text : Str) : Option Str :=
  match reSearch p text with
  | none => none
  | some cap =>
    let cw := cleanName (splitWs (stripWs cap))
    if 2 ≤ cw.length ∧ cw.length ≤ 4 then some (joinSep ' ' cw) else none

def extractNameText (text : Str) : Option Str :=
  firstSome (namePatterns.map (fun p => nameStep p text))

/-- One step of the balance cascade: search the pattern, strip commas from
the capture, accept only a parsed value strictly greater than 0 (stored as
the comma-stripped string). -/
def balStep (p : Pat) (text : Str) : Option Str :=
  match reSearch p text with
  | none => none
  | some cap =>
    let s := remAll ',' cap
    match pyFloat? s with
    | some (.fin v) => if 0 < v then some s else none
    | _ => none

def extractBalText (text : Str) : Option Str :=
  firstSome (balPatterns.map (fun p => balStep p text))

/-- Balance extraction over the spec-worded patterns with an optional
currency marker (for comparison with `extractBalText` only). -/
def extractBalSpecOptionalCur (text : Str) : Option Str :=
  firstSome (balPatternsSpecOptionalCur.map (fun p => balStep p text))

/-- The fixed keyword list of the confidence heuristic. -/
def keywords : List Str :=
  ["Name", "GPA", "CGPA", "Grade", "Student", "University"].map String.data

/-- `sum(1 for keyword in keywords if keyword.lower() in raw_text.lower())` -/
def keywordCount (raw : Str) : Nat :=
  keywords.countP (fun kw => containsSub (toLowerS kw) (toLowerS raw))

/-- Python `round(q, 2)` modelled as round-half-up on rationals (see the
header comment: no reachable confidence value is a tie). -/
def pyRound2 (q : ℚ) : ℚ := ((round (q * 100) : ℤ) : ℚ) / 100

/-- The confidence formula of `extract_data`:
`succ/3 * 0.6 + min(L/500, 1) * 0.2 + min(kc/6, 1) * 0.2`, rounded to two
decimal places. -/
def confCalc (succ L kc : Nat) : ℚ :=
  pyRound2 ((succ : ℚ) / 3 * 0.6 + min ((L : ℚ) / 500) 1 * 0.2
    + min ((kc : ℚ) / 6) 1 * 0.2)

structure Extracted where
  raw_text : Str
  extracted_gpa : Option Str
  extracted_name : Option Str
  extracted_balance : Option Str
  confidence_score : ℚ
deriving DecidableEq

/-- `OCREngine.extract_data`: join the fragments (by a space for
`raw_text`, by a newline for the multiline view used by name patterns),
run the three cascades, and score the result. -/
def extractData (textList : List Str) : Extracted :=
  let raw := joinSep ' ' textList
  let rawM := joinSep '\n' textList
  let g := extractGpaText raw
  let n := extractNameText rawM
  let b := extractBalText raw
  let succ := (if g.isSome then 1 else 0) + (if n.isSome then 1 else 0)
    + (if b.isSome then 1 else 0)
  { raw_text := raw,
    extracted_gpa := g,
    extracted_name := n,
    extracted_balance := b,
    confidence_score := confCalc succ raw.length (keywordCount raw) }

/-!
## Rendering numbers into the reason strings

`check_eligibility` interpolates float values into its reason strings.
Finite values reachable in this program are decimal fractions; `ratRepr`
renders those exactly the way `str` renders the corresponding double
(integers get a trailing `.0`).  A rational whose denominator is not of
the form `2^i * 5^j` is unreachable from a Python double; such values get
a fraction fallback rendering.
-/

/-- Decimal digits of `n`, most significant first (auxiliary). -/
def natDigitsAux (n : Nat) (acc : Str) : Str :=
  if h : n = 0 then acc
  else natDigitsAux (n / 10) (Char.ofNat (48 + n % 10) :: acc)
termination_by n
decreasing_by exact Nat.div_lt_self (Nat.pos_of_ne_zero h) (by decide)

def natDigits (n : Nat) : Str := if n = 0 then ['0'] else natDigitsAux n []

/-- Multiplicity of `p` in `n` (second argument is fuel, called with `n`). -/
def facCount (p : Nat) : Nat → Nat → Nat
  | 0, _ => 0
  | fuel + 1, n => if 2 ≤ n && n % p == 0 then facCount p fuel (n / p) + 1 else 0

/-- Exact decimal rendering of a rational with a `2^i * 5^j` denominator,
with a trailing `.0` for integers (Python `str` on a float); fraction
fallback otherwise. -/
def ratRepr (q : ℚ) : Str :=
  let a := q.num
  let b := q.den
  let k2 := facCount 2 b b
  let k5 := facCount 5 b b
  if b = 2 ^ k2 * 5 ^ k5 then
    let k := max k2 k5
    let ds0 := natDigits (a.natAbs * (10 ^ k / b))
    let ds := if ds0.length ≤ k then List.replicate (k + 1 - ds0.length) '0' ++ ds0 else ds0
    let ip := ds.take (ds.length - k)
    let fp0 := ds.drop (ds.length - k)
    let fp := if fp0 = [] then ['0'] else fp0
    (if a < 0 then ['-'] else []) ++ ip ++ '.' :: fp
  else
    (if a < 0 then ['-'] else []) ++ natDigits a.natAbs ++ '/' :: natDigits b

def pfRepr : PFloat → Str
  | .fin q => ratRepr q
  | .inf => "inf".data
  | .ninf => "-inf".data
  | .nan => "nan".data

/-!
## `check_eligibility`
-/

/-- A Python value reaching `check_eligibility`'s parameters: a number
(held exactly) or a string. -/
inductive PyVal where
  | num (q : ℚ)
  | str (s : Str)
deriving DecidableEq

/-- The cleaning `_clean_gpa` applies to a string before `float()`:
strip, drop `%`, drop `,`, strip. -/
def gpaClean (s : Str) : Str := stripWs (remAll ',' (remAll '%' (stripWs s)))

/-- `EligibilityEngine._clean_gpa`. -/
def cleanGpa : PyVal → Option PFloat
  | .num q => some (.fin q)
  | .str s => pyFloat? (gpaClean s)

/-- Python `float(x)` on a value that is already a number or a string. -/
def floatOfVal : PyVal → Option PFloat
  | .num q => some (.fin q)
  | .str s => pyFloat? s

def gpaNotFoundMsg : Str := "GPA/Percentage not found in document".data
def gpaUnparseMsg : Str := "Unable to parse GPA/Percentage value".data
def pctPassMsg (v : PFloat) : Str :=
  "Percentage ".data ++ pfRepr v ++ "% meets requirement (>= ".data
    ++ ratRepr 80 ++ "%)".data
def pctFailMsg (v : PFloat) : Str :=
  "Percentage ".data ++ pfRepr v ++ "% is below required ".data
    ++ ratRepr 80 ++ "%".data
def gpaPassMsg (v : PFloat) : Str :=
  "GPA ".data ++ pfRepr v ++ " meets requirement (>= ".data ++ ratRepr 8 ++ ")".data
def gpaFailMsg (v : PFloat) : Str :=
  "GPA ".data ++ pfRepr v ++ " is below required ".data ++ ratRepr 8
def ieltsNotProvidedMsg : Str := "IELTS score not provided".data
def ieltsInvalidMsg : Str := "Invalid IELTS score format".data
def ieltsPassMsg (v : PFloat) : Str :=
  "IELTS score ".data ++ pfRepr v ++ " meets requirement (>= ".data
    ++ ratRepr 8 ++ ")".data
def ieltsFailMsg (v : PFloat) : Str :=
  "IELTS score ".data ++ pfRepr v ++ " is below required ".data ++ ratRepr 8

structure EligibilityResult where
  eligible : Bool
  reasons : List Str
deriving DecidableEq

/-- `EligibilityEngine.check_eligibility` (thresholds
`GPA_THRESHOLD = 8.0`, `PERCENTAGE_THRESHOLD = 80.0`,
`IELTS_THRESHOLD = 8.0`). -/
def checkEligibility (extracted_gpa ielts_score : Option PyVal) : EligibilityResult :=
  let gpaRes : Bool × Str :=
    match extracted_gpa with
    | none => (false, gpaNotFoundMsg)
    | some (.str []) => (false, gpaNotFoundMsg)
    | some v =>
      match cleanGpa v with
      | none => (false, gpaUnparseMsg)
      | some gv =>
        if gv.gtB (.fin 10) then
          if gv.geB (.fin 80) then (true, pctPassMsg gv) else (false, pctFailMsg gv)
        else
          if gv.geB (.fin 8) then (true, gpaPassMsg gv) else (false, gpaFailMsg gv)
  let ieltsRes : Bool × Str :=
    match ielts_score with
    | none => (false, ieltsNotProvidedMsg)
    | some v =>
      match floatOfVal v with
      | none => (false, ieltsInvalidMsg)
      | some iv =>
        if iv.geB (.fin 8) then (true, ieltsPassMsg iv) else (false, ieltsFailMsg iv)
  { eligible := gpaRes.1 && ieltsRes.1, reasons := [gpaRes.2, ieltsRes.2] }

/-!
Factored views of the two criteria, stated separately from
`checkEligibility` so theorems can relate the monolithic function to its
two independent criteria.
-/

/-- The normalized grade value: `none` when the grade is absent, the empty
string, or fails to parse after cleaning. -/
def gradeNorm : Option PyVal → Option PFloat
  | none => none
  | some (.str []) => none
  | some v => cleanGpa v

/-- The grade criterion by itself. -/
def gradePassB (g : Option PyVal) : Bool :=
  match gradeNorm g with
  | none => false
  | some gv => if gv.gtB (.fin 10) then gv.geB (.fin 80) else gv.geB (.fin 8)

/-- The single reason line the grade criterion contributes. -/
def gradeReasonS (g : Option PyVal) : Str :=
  match g with
  | none => gpaNotFoundMsg
  | some (.str []) => gpaNotFoundMsg
  | some v =>
    match cleanGpa v with
    | none => gpaUnparseMsg
    | some gv =>
      if gv.gtB (.fin 10) then
        if gv.geB (.fin 80) then pctPassMsg gv else pctFailMsg gv
      else
        if gv.geB (.fin 8) then gpaPassMsg gv else gpaFailMsg gv

/-- The normalized test-score value. -/
def ieltsNorm : Option PyVal → Option PFloat
  | none => none
  | some v => floatOfVal v

/-- The test-score criterion by itself. -/
def ieltsPassB (t : Option PyVal) : Bool :=
  match ieltsNorm t with
  | none => false
  | some iv => iv.geB (.fin 8)

/-- The single reason line the test-score criterion contributes. -/
def ieltsReasonS (t : Option PyVal) : Str :=
  match t with
  | none => ieltsNotProvidedMsg
  | some v =>
    match floatOfVal v with
    | none => ieltsInvalidMsg
    | some iv => if iv.geB (.fin 8) then ieltsPassMsg iv else ieltsFailMsg iv

/-- A fragment sequence on which all three extractions succeed, all six
keywords occur, and the joined raw text has length 494 (below 500). -/
def c8frags : List Str :=
  ["Student Name: John Smith".data,
   "CGPA: 9.2 Grade University".data,
   "Balance: Rs. 5,000".data,
   List.replicate 423 'x']

/-!
## Helper lemmas
-/

theorem mkQn_eq (m d : Nat) (hd : d ≠ 0) : mkQn m d hd = (m : ℚ) / (d : ℚ) := by
  have hnum : (mkQn m d hd).num = ((m / m.gcd d : Nat) : Int) := rfl
  have hden : (mkQn m d hd).den = d / m.gcd d := rfl
  rw [← Rat.num_div_den (mkQn m d hd), hnum, hden]
  have hdpos : 0 < d := Nat.pos_of_ne_zero hd
  have hg : 0 < m.gcd d := Nat.gcd_pos_of_pos_right m hdpos
  have hq : 0 < d / m.gcd d :=
    Nat.div_pos (Nat.le_of_dvd hdpos (Nat.gcd_dvd_right m d)) hg
  rw [div_eq_div_iff]
  · have key : m / m.gcd d * d = m * (d / m.gcd d) := by
      apply Nat.eq_of_mul_eq_mul_right hg
      calc m / m.gcd d * d * m.gcd d = m / m.gcd d * m.gcd d * d := by ring
        _ = m * d := by rw [Nat.div_mul_cancel (Nat.gcd_dvd_left m d)]
        _ = m * (d / m.gcd d * m.gcd d) := by rw [Nat.div_mul_cancel (Nat.gcd_dvd_right m d)]
        _ = m * (d / m.gcd d) * m.gcd d := by ring
    rw [Int.cast_natCast (R := ℚ), ← Nat.cast_mul, ← Nat.cast_mul, key]
  · exact_mod_cast Nat.ne_of_gt hq
  · exact_mod_cast Nat.ne_of_gt hdpos

theorem mkQ_eq (n : Int) (d : Nat) (hd : d ≠ 0) : mkQ n d hd = (n : ℚ) / (d : ℚ) := by
  unfold mkQ
  split
  · rename_i hn
    rw [mkQn_eq]
    have h0 : ((n.natAbs : ℕ) : ℤ) = -n := by omega
    have h1 : ((n.natAbs : ℕ) : ℚ) = -(n : ℚ) := by
      rw [← Int.cast_natCast (R := ℚ), h0, Int.cast_neg]
    rw [h1, neg_div, neg_neg]
  · rename_i hn
    rw [mkQn_eq]
    have h0 : ((n.natAbs : ℕ) : ℤ) = n := by omega
    have h1 : ((n.natAbs : ℕ) : ℚ) = (n : ℚ) := by
      rw [← Int.cast_natCast (R := ℚ), h0]
    rw [h1]

/-- `check_eligibility` decomposes into the two criterion views: the
decision is the conjunction of the criterion booleans and the reasons list
is the pair of criterion reason lines, in order. -/
theorem checkElig_eq (g t : Option PyVal) :
    checkEligibility g t =
      ⟨gradePassB g && ieltsPassB t, [gradeReasonS g, ieltsReasonS t]⟩ := by
  have hi : ∀ t : Option PyVal,
      (match t with
        | none => (false, ieltsNotProvidedMsg)
        | some v =>
          match floatOfVal v with
          | none => (false, ieltsInvalidMsg)
          | some iv =>
            if iv.geB (.fin 8) then (true, ieltsPassMsg iv) else (false, ieltsFailMsg iv))
      = (ieltsPassB t, ieltsReasonS t) := by
    intro t
    rcases t with _ | w
    · rfl
    · simp only [ieltsPassB, ieltsNorm, ieltsReasonS]
      cases hf : floatOfVal w
      · rfl
      · rename_i iv
        cases hb : iv.geB (.fin 8) <;> simp [hb]
  have hg : ∀ g : Option PyVal,
      (match g with
        | none => (false, gpaNotFoundMsg)
        | some (.str []) => (false, gpaNotFoundMsg)
        | some v =>
          match cleanGpa v with
          | none => (false, gpaUnparseMsg)
          | some gv =>
            if gv.gtB (.fin 10) then
              if gv.geB (.fin 80) then (true, pctPassMsg gv) else (false, pctFailMsg gv)
            else
              if gv.geB (.fin 8) then (true, gpaPassMsg gv) else (false, gpaFailMsg gv))
      = (gradePassB g, gradeReasonS g) := by
    intro g
    rcases g with _ | v
    · rfl
    · rcases v with q | s
      · simp only [gradePassB, gradeNorm, gradeReasonS]
        cases hc : cleanGpa (PyVal.num q)
        · rfl
        · rename_i gv
          cases hb : gv.gtB (.fin 10) <;>
            [cases hb2 : gv.geB (.fin 8); cases hb2 : gv.geB (.fin 80)] <;>
            simp [hb, hb2]
      · rcases s with _ | ⟨c, cs⟩
        · rfl
        · simp only [gradePassB, gradeNorm, gradeReasonS]
          cases hc : cleanGpa (PyVal.str (c :: cs))
          · rfl
          · rename_i gv
            cases hb : gv.gtB (.fin 10) <;>
              [cases hb2 : gv.geB (.fin 8); cases hb2 : gv.geB (.fin 80)] <;>
              simp [hb, hb2]
  unfold checkEligibility
  rw [hg g, hi t]

/-- Relate the grade criterion's outcome and reason line to the
normalized grade value. -/
theorem gradeCrit_of_norm (g : Option PyVal) (gv : PFloat)
    (h : gradeNorm g = some gv) :
    gradePassB g = (if gv.gtB (.fin 10) then gv.geB (.fin 80) else gv.geB (.fin 8))
    ∧ gradeReasonS g =
      (if gv.gtB (.fin 10) then
        if gv.geB (.fin 80) then pctPassMsg gv else pctFailMsg gv
      else
        if gv.geB (.fin 8) then gpaPassMsg gv else gpaFailMsg gv) := by
  constructor
  · unfold gradePassB
    rw [h]
  · rcases g with _ | v
    · simp [gradeNorm] at h
    · rcases v with q | s
      · simp only [gradeNorm] at h
        simp only [gradeReasonS]
        rw [h]
      · rcases s with _ | ⟨c, cs⟩
        · simp [gradeNorm] at h
        · simp only [gradeNorm] at h
          simp only [gradeReasonS]
          rw [h]

/-!
## Claim theorems: eligibility (C1, C2, C4, C9)
-/

/-- **C1**: for every grade input (string, number, or absent) and every
test-score input, `check_eligibility`'s `eligible` field is true iff the
grade criterion passes and the test-score criterion passes; a missing or
unparseable grade or test score (normalized value `none`) always fails its
own criterion, so eligibility is never granted by default. -/
theorem eligible_iff_both_criteria :
    (∀ g t, (checkEligibility g t).eligible = (gradePassB g && ieltsPassB t))
    ∧ (∀ g, gradeNorm g = none → gradePassB g = false)
    ∧ (∀ t, ieltsNorm t = none → ieltsPassB t = false) := by
  refine ⟨fun g t => ?_, fun g h => ?_, fun t h => ?_⟩
  · rw [checkElig_eq]
  · unfold gradePassB
    rw [h]
  · unfold ieltsPassB
    rw [h]

theorem eligible_iff_both_criteria_check :
    (checkEligibility (some (.num 9)) none).eligible
        = (gradePassB (some (.num 9)) && ieltsPassB none)
    ∧ gradePassB (some (.str "abc".data)) = false
    ∧ ieltsPassB (some (.str "x".data)) = false :=
  ⟨eligible_iff_both_criteria.1 _ _,
   eligible_iff_both_criteria.2.1 _ (by decide),
   eligible_iff_both_criteria.2.2 _ (by decide)⟩

/-- **C2**: a grade input normalizing to a numeric value `v` is treated as
a percentage (threshold 80.0) when `v > 10` and as a grade-point value
(threshold 8.0) otherwise; in particular 85 passes and 7.5 fails the
grade criterion. -/
theorem grade_scale_disambiguation :
    (∀ g (v : ℚ), gradeNorm g = some (.fin v) →
      (10 < v → gradePassB g = decide (80 ≤ v)
        ∧ gradeReasonS g =
            (if 80 ≤ v then pctPassMsg (.fin v) else pctFailMsg (.fin v)))
      ∧ (v ≤ 10 → gradePassB g = decide (8 ≤ v)
        ∧ gradeReasonS g =
            (if 8 ≤ v then gpaPassMsg (.fin v) else gpaFailMsg (.fin v))))
    ∧ gradePassB (some (.num 85)) = true
    ∧ gradePassB (some (.num (15 / 2))) = false
    ∧ (checkEligibility (some (.num 85)) (some (.num 9))).eligible = true
    ∧ (checkEligibility (some (.num (15 / 2))) (some (.num 9))).eligible = false := by
  have h75 : (15 / 2 : ℚ) = mkQ 15 2 (by norm_num) := by
    rw [mkQ_eq]
    norm_num
  refine ⟨fun g v h => ?_, by decide, ?_, by decide, ?_⟩
  · obtain ⟨hpass, hreason⟩ := gradeCrit_of_norm g (.fin v) h
    have hgt : PFloat.gtB (.fin v) (.fin 10) = decide (10 < v) := rfl
    have hge80 : PFloat.geB (.fin v) (.fin 80) = decide (80 ≤ v) := rfl
    have hge8 : PFloat.geB (.fin v) (.fin 8) = decide (8 ≤ v) := rfl
    constructor
    · intro hv
      have : decide (10 < v) = true := decide_eq_true hv
      constructor
      · rw [hpass, hgt, this, if_pos rfl, hge80]
      · rw [hreason, hgt, this, if_pos rfl, hge80]
        by_cases h80 : 80 ≤ v
        · rw [if_pos h80, if_pos (decide_eq_true h80)]
        · rw [if_neg h80, if_neg (by simpa using h80)]
    · intro hv
      have : decide (10 < v) = false := decide_eq_false (not_lt.mpr hv)
      constructor
      · rw [hpass, hgt, this, if_neg (by simp), hge8]
      · rw [hreason, hgt, this, if_neg (by simp), hge8]
        by_cases h8 : 8 ≤ v
        · rw [if_pos h8, if_pos (decide_eq_true h8)]
        · rw [if_neg h8, if_neg (by simpa using h8)]
  · rw [h75]
    decide
  · rw [h75]
    decide

theorem grade_scale_disambiguation_check :
    gradePassB (some (.num 85)) = decide ((80 : ℚ) ≤ 85)
    ∧ gradePassB (some (.num 5)) = decide ((8 : ℚ) ≤ 5) :=
  ⟨((grade_scale_disambiguation.1 (some (.num 85)) 85 (by decide)).1 (by norm_num)).1,
   ((grade_scale_disambiguation.1 (some (.num 5)) 5 (by decide)).2 (by norm_num)).1⟩

/-- **C4**: `check_eligibility` is total, and every degraded input gets its
fixed reason line: absent/empty grade → "GPA/Percentage not found in
document" (which contains the claim's phrase "not found in document");
a cleaned grade string that does not parse → "Unable to parse
GPA/Percentage value"; absent test score → "IELTS score not provided"
(containing "not provided"); a test score that cannot be coerced to a
number → "Invalid IELTS score format".  Each such case also fails its
criterion. -/
theorem degraded_input_reasons :
    (∀ g t, (checkEligibility g t).reasons = [gradeReasonS g, ieltsReasonS t])
    ∧ (gradeReasonS none = gpaNotFoundMsg ∧ gradePassB none = false)
    ∧ (gradeReasonS (some (.str [])) = gpaNotFoundMsg
        ∧ gradePassB (some (.str [])) = false)
    ∧ (∀ s : Str, s ≠ [] → pyFloat? (gpaClean s) = none →
        gradeReasonS (some (.str s)) = gpaUnparseMsg
        ∧ gradePassB (some (.str s)) = false)
    ∧ (ieltsReasonS none = ieltsNotProvidedMsg ∧ ieltsPassB none = false)
    ∧ (∀ s : Str, pyFloat? s = none →
        ieltsReasonS (some (.str s)) = ieltsInvalidMsg
        ∧ ieltsPassB (some (.str s)) = false)
    ∧ containsSub "not found in document".data gpaNotFoundMsg = true
    ∧ containsSub "not provided".data ieltsNotProvidedMsg = true := by
  refine ⟨fun g t => ?_, ⟨rfl, rfl⟩, ⟨rfl, rfl⟩, fun s hne hp => ?_,
    ⟨rfl, rfl⟩, fun s hp => ?_, by decide, by decide⟩
  · rw [checkElig_eq]
  · rcases s with _ | ⟨c, cs⟩
    · exact absurd rfl hne
    · have hc : cleanGpa (PyVal.str (c :: cs)) = none := hp
      constructor
      · simp [gradeReasonS, hc]
      · simp [gradePassB, gradeNorm, hc]
  · have hc : floatOfVal (PyVal.str s) = none := hp
    constructor
    · simp [ieltsReasonS, hc]
    · simp [ieltsPassB, ieltsNorm, hc]

theorem degraded_input_reasons_check :
    gradeReasonS (some (.str "abc".data)) = gpaUnparseMsg
    ∧ ieltsReasonS (some (.str "x".data)) = ieltsInvalidMsg :=
  ⟨(degraded_input_reasons.2.2.2.1 "abc".data (by decide) (by decide)).1,
   (degraded_input_reasons.2.2.2.2.2.1 "x".data (by decide)).1⟩

/-- **C9**: the reasons list is always exactly the grade-criterion reason
followed by the test-score-criterion reason — one entry per criterion, in
that order, both present whatever the outcome — and when a criterion
passes its entry is the confirming "meets requirement" message. -/
theorem reasons_order_and_confirmation :
    (∀ g t, (checkEligibility g t).reasons = [gradeReasonS g, ieltsReasonS t])
    ∧ (∀ g, gradePassB g = true →
        ∃ v, gradeReasonS g = pctPassMsg v ∨ gradeReasonS g = gpaPassMsg v)
    ∧ (∀ t, ieltsPassB t = true → ∃ v, ieltsReasonS t = ieltsPassMsg v) := by
  refine ⟨fun g t => by rw [checkElig_eq], fun g h => ?_, fun t h => ?_⟩
  · cases hn : gradeNorm g with
    | none =>
      unfold gradePassB at h
      rw [hn] at h
      exact absurd h (by simp)
    | some gv =>
      obtain ⟨hpass, hreason⟩ := gradeCrit_of_norm g gv hn
      cases hb : gv.gtB (.fin 10) with
      | true =>
        rw [hb, if_pos rfl] at hpass hreason
        rw [hpass] at h
        rw [h, if_pos rfl] at hreason
        exact ⟨gv, Or.inl hreason⟩
      | false =>
        rw [hb, if_neg (by simp)] at hpass hreason
        rw [hpass] at h
        rw [h, if_pos rfl] at hreason
        exact ⟨gv, Or.inr hreason⟩
  · cases hn : ieltsNorm t with
    | none =>
      unfold ieltsPassB at h
      rw [hn] at h
      exact absurd h (by simp)
    | some iv =>
      rcases t with _ | w
      · simp [ieltsNorm] at hn
      · simp only [ieltsNorm] at hn
        simp only [ieltsPassB, ieltsNorm, hn] at h
        exact ⟨iv, by simp [ieltsReasonS, hn, h]⟩

theorem reasons_order_and_confirmation_check :
    (checkEligibility (some (.num 9)) (some (.num 9))).reasons
        = [gradeReasonS (some (.num 9)), ieltsReasonS (some (.num 9))]
    ∧ ∃ v, ieltsReasonS (some (.num 9)) = ieltsPassMsg v :=
  ⟨reasons_order_and_confirmation.1 _ _,
   reasons_order_and_confirmation.2.2 _ (by decide)⟩

/-!
## Helper lemmas for the cascades
-/

theorem firstSome_eq_some_iff {α : Type} (l : List (Option α)) (x : α) :
    firstSome l = some x ↔
      ∃ i : Nat, ∃ h : i < l.length, l.get ⟨i, h⟩ = some x ∧
        ∀ j : Nat, ∀ hj : j < l.length, j < i → l.get ⟨j, hj⟩ = none := by
  induction l with
  | nil => simp [firstSome]
  | cons o rest ih =>
    cases o with
    | some y =>
      simp only [firstSome]
      constructor
      · intro h
        refine ⟨0, Nat.succ_pos _, by simpa using h, fun j hj hji => absurd hji (Nat.not_lt_zero j)⟩
      · rintro ⟨i, hi, hget, hprev⟩
        cases i with
        | zero => simpa using hget
        | succ i' =>
          have h0 := hprev 0 (Nat.succ_pos _) (Nat.succ_pos _)
          simp at h0
    | none =>
      simp only [firstSome]
      rw [ih]
      constructor
      · rintro ⟨i, hi, hget, hprev⟩
        refine ⟨i + 1, Nat.succ_lt_succ hi, by simpa using hget, fun j hj hji => ?_⟩
        cases j with
        | zero => rfl
        | succ j' =>
          simpa using hprev j' (Nat.lt_of_succ_lt_succ hj) (Nat.lt_of_succ_lt_succ hji)
      · rintro ⟨i, hi, hget, hprev⟩
        cases i with
        | zero => simp at hget
        | succ i' =>
          refine ⟨i', Nat.lt_of_succ_lt_succ hi, by simpa using hget, fun j hj hji => ?_⟩
          simpa using hprev (j + 1) (Nat.succ_lt_succ hj) (Nat.succ_lt_succ hji)

theorem firstSome_mem {α : Type} {l : List (Option α)} {x : α}
    (h : firstSome l = some x) : some x ∈ l := by
  induction l with
  | nil => simp [firstSome] at h
  | cons o rest ih =>
    cases o with
    | some y =>
      simp only [firstSome] at h
      simp [h]
    | none =>
      simp only [firstSome] at h
      exact List.mem_cons_of_mem _ (ih h)

theorem cleanName_mem {w : Str} :
    ∀ {ws : List Str}, w ∈ cleanName ws → wordOk w = true ∧ w ∉ stopWords := by
  intro ws
  induction ws with
  | nil => simp [cleanName]
  | cons a as ih =>
    simp only [cleanName]
    split
    · simp
    · split
      · intro hmem
        rcases List.mem_cons.mp hmem with rfl | hm
        · exact ⟨by assumption, by assumption⟩
        · exact ih hm
      · exact ih

theorem firstSome_map_iff {α β : Type} (f : β → Option α) (l : List β) (x : α) :
    firstSome (l.map f) = some x ↔
      ∃ i : Nat, ∃ h : i < l.length, f (l.get ⟨i, h⟩) = some x ∧
        ∀ j : Nat, ∀ hj : j < l.length, j < i → f (l.get ⟨j, hj⟩) = none := by
  rw [firstSome_eq_some_iff]
  constructor
  · rintro ⟨i, hi, hget, hprev⟩
    have hi' : i < l.length := by simpa using hi
    refine ⟨i, hi', ?_, fun j hj hji => ?_⟩
    · rw [← hget]
      simp [List.get_eq_getElem]
    · have := hprev j (by simpa using hj) hji
      rw [← this]
      simp [List.get_eq_getElem]
  · rintro ⟨i, hi, hget, hprev⟩
    have hi' : i < (l.map f).length := by simpa using hi
    refine ⟨i, hi', ?_, fun j hj hji => ?_⟩
    · rw [← hget]
      simp [List.get_eq_getElem]
    · have := hprev j (by simpa using hj) hji
      rw [← this]
      simp [List.get_eq_getElem]

theorem extractData_gpa (fs : List Str) :
    (extractData fs).extracted_gpa = extractGpaText (joinSep ' ' fs) := rfl

theorem extractData_name (fs : List Str) :
    (extractData fs).extracted_name = extractNameText (joinSep '\n' fs) := rfl

theorem extractData_balance (fs : List Str) :
    (extractData fs).extracted_balance = extractBalText (joinSep ' ' fs) := rfl

theorem extractData_raw (fs : List Str) :
    (extractData fs).raw_text = joinSep ' ' fs := rfl

theorem extractData_conf (fs : List Str) :
    (extractData fs).confidence_score =
      confCalc ((if (extractGpaText (joinSep ' ' fs)).isSome then 1 else 0)
          + (if (extractNameText (joinSep '\n' fs)).isSome then 1 else 0)
          + (if (extractBalText (joinSep ' ' fs)).isSome then 1 else 0))
        (joinSep ' ' fs).length (keywordCount (joinSep ' ' fs)) := rfl

/-!
## Claim theorems: extraction cascades (C3, C5, C6)
-/

set_option maxRecDepth 40000 in
/-- **C3**: grade extraction tries the 12 patterns in declared priority
order against the raw text, accepts the first pattern whose `re.search`
capture parses as a float in [0, 100] and stops; a first match that is
out of range moves the cascade to the next pattern (never to a later
match of the same pattern); a text with both "CGPA: 9.2" and
"Total: 55000" yields grade "9.2". -/
theorem grade_priority_cascade :
    (∀ t g, extractGpaText t = some g ↔
      ∃ i : Nat, ∃ h : i < gpaPatterns.length,
        gpaStep (gpaPatterns.get ⟨i, h⟩) t = some g ∧
        ∀ j : Nat, ∀ hj : j < gpaPatterns.length, j < i →
          gpaStep (gpaPatterns.get ⟨j, hj⟩) t = none)
    ∧ (∀ t g, extractGpaText t = some g →
        ∃ v : ℚ, pyFloat? g = some (.fin v) ∧ 0 ≤ v ∧ v ≤ 100)
    ∧ (extractData ["CGPA: 9.2 Total: 55000".data]).extracted_gpa
        = some "9.2".data
    ∧ extractGpaText "Total: 500 Total: 50".data = none := by
  refine ⟨fun t g => ?_, fun t g h => ?_, by decide, by decide⟩
  · unfold extractGpaText
    exact firstSome_map_iff _ _ _
  · unfold extractGpaText at h
    obtain ⟨p, hp, hstep⟩ := List.mem_map.mp (firstSome_mem h)
    rcases hr : reSearch p t with _ | cap
    · simp [gpaStep, hr] at hstep
    · simp only [gpaStep, hr] at hstep
      rcases hf : pyFloat? cap with _ | pf
      · rw [hf] at hstep
        simp at hstep
      · rw [hf] at hstep
        cases pf with
        | fin v =>
          simp only [] at hstep
          split at hstep
          · rename_i h01
            obtain rfl : cap = g := Option.some.inj hstep
            exact ⟨v, hf, h01.1, h01.2⟩
          · simp at hstep
        | inf => simp at hstep
        | ninf => simp at hstep
        | nan => simp at hstep

set_option maxRecDepth 40000 in
theorem grade_priority_cascade_check :
    ∃ i : Nat, ∃ h : i < gpaPatterns.length,
      gpaStep (gpaPatterns.get ⟨i, h⟩) "CGPA: 5".data = some "5".data ∧
      ∀ j : Nat, ∀ hj : j < gpaPatterns.length, j < i →
        gpaStep (gpaPatterns.get ⟨j, hj⟩) "CGPA: 5".data = none :=
  (grade_priority_cascade.1 "CGPA: 5".data "5".data).mp (by decide)

set_option maxRecDepth 40000 in
/-- **C5 (counterexample)**: a candidate run of five name-like words after
the "Name:" label does yield an accepted name — the regex capture is
bounded at four words, which pass the filter and the 2–4 count check —
contradicting the claim that a 5-word candidate run yields no accepted
name. -/
theorem name_five_word_run_cex :
    (extractData ["Name: Alpha Beta Gamma Delta Epsilon".data]).extracted_name
      = some "Alpha Beta Gamma Delta".data := by decide

set_option maxRecDepth 40000 in
/-- **C5 (amended)**: the captured word run is cleaned left to right,
stopping at the first stop word and keeping only capitalized all-letter
tokens; a name is accepted iff the cleaned count is 2–4 (so every
extracted name is 2–4 clean non-stop words); "John Michael Smith
University of Technology" yields "John Michael Smith"; a 1-word run
yields no name; a 5-word run yields the name of its first four words. -/
theorem name_filter_cascade :
    (∀ t n, extractNameText t = some n →
      ∃ ws : List Str, n = joinSep ' ' ws ∧ 2 ≤ ws.length ∧ ws.length ≤ 4 ∧
        ∀ w ∈ ws, wordOk w = true ∧ w ∉ stopWords)
    ∧ extractNameText "Name: John Michael Smith University of Technology".data
        = some "John Michael Smith".data
    ∧ extractNameText "Name: John".data = none
    ∧ extractNameText "Name: Alpha Beta Gamma Delta Epsilon".data
        = some "Alpha Beta Gamma Delta".data := by
  refine ⟨fun t n h => ?_, by decide, by decide, by decide⟩
  · unfold extractNameText at h
    obtain ⟨p, hp, hstep⟩ := List.mem_map.mp (firstSome_mem h)
    rcases hr : reSearch p t with _ | cap
    · simp [nameStep, hr] at hstep
    · simp only [nameStep, hr] at hstep
      split at hstep
      · rename_i hlen
        exact ⟨cleanName (splitWs (stripWs cap)), (Option.some.inj hstep).symm,
          hlen.1, hlen.2, fun w hw => cleanName_mem hw⟩
      · simp at hstep

set_option maxRecDepth 40000 in
theorem name_filter_cascade_check :
    ∃ ws : List Str, "John Smith".data = joinSep ' ' ws
      ∧ 2 ≤ ws.length ∧ ws.length ≤ 4
      ∧ ∀ w ∈ ws, wordOk w = true ∧ w ∉ stopWords :=
  name_filter_cascade.1 "Name: John Smith".data "John Smith".data (by decide)

set_option maxRecDepth 40000 in
/-- **C6 (counterexample)**: the currency marker in the balance patterns
is required, not optional: on "Balance: 5000" the source cascade extracts
nothing, while the cascade built from the specification's words (optional
marker) would extract "5000". -/
theorem balance_marker_required_cex :
    extractBalText "Balance: 5000".data = none
    ∧ extractBalSpecOptionalCur "Balance: 5000".data = some "5000".data := by
  exact ⟨by decide, by decide⟩

set_option maxRecDepth 40000 in
/-- **C6 (amended)**: balance extraction tries its label patterns in
order, each requiring a currency marker after the label; on the first
match it strips commas, parses the result, and accepts only values
strictly greater than 0 (stored as the comma-stripped string), otherwise
the cascade continues; "Rs. 1,25,000.50" yields "125000.50" and a 0
candidate is rejected with extraction continuing to a later pattern. -/
theorem balance_cascade :
    (∀ t b, extractBalText t = some b ↔
      ∃ i : Nat, ∃ h : i < balPatterns.length,
        balStep (balPatterns.get ⟨i, h⟩) t = some b ∧
        ∀ j : Nat, ∀ hj : j < balPatterns.length, j < i →
          balStep (balPatterns.get ⟨j, hj⟩) t = none)
    ∧ (∀ t b, extractBalText t = some b →
        ',' ∉ b ∧ ∃ v : ℚ, pyFloat? b = some (.fin v) ∧ 0 < v)
    ∧ (extractData ["Balance: Rs. 1,25,000.50".data]).extracted_balance
        = some "125000.50".data
    ∧ extractBalText "Balance: Rs. 0 Amount: Rs. 500".data = some "500".data := by
  refine ⟨fun t b => ?_, fun t b h => ?_, by decide, by decide⟩
  · unfold extractBalText
    exact firstSome_map_iff _ _ _
  · unfold extractBalText at h
    obtain ⟨p, hp, hstep⟩ := List.mem_map.mp (firstSome_mem h)
    rcases hr : reSearch p t with _ | cap
    · simp [balStep, hr] at hstep
    · simp only [balStep, hr] at hstep
      rcases hf : pyFloat? (remAll ',' cap) with _ | pf
      · rw [hf] at hstep
        simp at hstep
      · rw [hf] at hstep
        cases pf with
        | fin v =>
          simp only [] at hstep
          split at hstep
          · rename_i h0
            obtain rfl : remAll ',' cap = b := Option.some.inj hstep
            refine ⟨fun hmem => ?_, v, hf, h0⟩
            have := List.of_mem_filter hmem
            simp at this
          · simp at hstep
        | inf => simp at hstep
        | ninf => simp at hstep
        | nan => simp at hstep

set_option maxRecDepth 40000 in
theorem balance_cascade_check :
    ',' ∉ "125000.50".data
    ∧ ∃ v : ℚ, pyFloat? "125000.50".data = some (.fin v) ∧ 0 < v :=
  balance_cascade.2.1 "Balance: Rs. 1,25,000.50".data "125000.50".data (by decide)

/-!
## Helper lemmas for the confidence score
-/

theorem confCalc_bounds (s L k : Nat) (hs : s ≤ 3) :
    0 ≤ confCalc s L k ∧ confCalc s L k ≤ 1 := by
  have hsq : (s : ℚ) ≤ 3 := by exact_mod_cast hs
  have hs0 : (0 : ℚ) ≤ (s : ℚ) := by positivity
  have hL0 : (0 : ℚ) ≤ min ((L : ℚ) / 500) 1 := le_min (by positivity) (by norm_num)
  have hL1 : min ((L : ℚ) / 500) 1 ≤ 1 := min_le_right _ _
  have hk0 : (0 : ℚ) ≤ min ((k : ℚ) / 6) 1 := le_min (by positivity) (by norm_num)
  have hk1 : min ((k : ℚ) / 6) 1 ≤ 1 := min_le_right _ _
  set x : ℚ := (s : ℚ) / 3 * 0.6 + min ((L : ℚ) / 500) 1 * 0.2
    + min ((k : ℚ) / 6) 1 * 0.2 with hxdef
  have hx0 : 0 ≤ x := by rw [hxdef]; norm_num; linarith
  have hx1 : x ≤ 1 := by rw [hxdef]; norm_num; linarith
  have hfl0 : (0 : ℤ) ≤ ⌊x * 100 + 1 / 2⌋ := Int.le_floor.mpr (by push_cast; linarith)
  have hfl1 : ⌊x * 100 + 1 / 2⌋ ≤ 100 := by
    have : ⌊x * 100 + 1 / 2⌋ < 101 := Int.floor_lt.mpr (by push_cast; linarith)
    omega
  unfold confCalc pyRound2
  rw [round_eq, ← hxdef]
  constructor
  · have h0 : (0 : ℚ) ≤ ((⌊x * 100 + 1 / 2⌋ : ℤ) : ℚ) := by exact_mod_cast hfl0
    linarith
  · have h1 : ((⌊x * 100 + 1 / 2⌋ : ℤ) : ℚ) ≤ 100 := by exact_mod_cast hfl1
    linarith

theorem confCalc_eq_one_iff (s L k : Nat) (hs : s ≤ 3) (hk : k ≤ 6) :
    confCalc s L k = 1 ↔ (s = 3 ∧ k = 6 ∧ 488 ≤ L) := by
  have hsq : (s : ℚ) ≤ 3 := by exact_mod_cast hs
  have hkq : (k : ℚ) ≤ 6 := by exact_mod_cast hk
  have hs0 : (0 : ℚ) ≤ (s : ℚ) := by positivity
  have hL0 : (0 : ℚ) ≤ min ((L : ℚ) / 500) 1 := le_min (by positivity) (by norm_num)
  have hL1 : min ((L : ℚ) / 500) 1 ≤ 1 := min_le_right _ _
  have hk0 : (0 : ℚ) ≤ min ((k : ℚ) / 6) 1 := le_min (by positivity) (by norm_num)
  have hk1 : min ((k : ℚ) / 6) 1 ≤ 1 := min_le_right _ _
  set x : ℚ := (s : ℚ) / 3 * 0.6 + min ((L : ℚ) / 500) 1 * 0.2
    + min ((k : ℚ) / 6) 1 * 0.2 with hxdef
  have hx1 : x ≤ 1 := by rw [hxdef]; norm_num; linarith
  have key : confCalc s L k = 1 ↔ (199 / 2 : ℚ) ≤ x * 100 := by
    unfold confCalc pyRound2
    rw [round_eq, ← hxdef]
    constructor
    · intro h
      have h100 : ⌊x * 100 + 1 / 2⌋ = (100 : ℤ) := by
        have h' := h
        rw [div_eq_iff (by norm_num : (100 : ℚ) ≠ 0)] at h'
        have hcast : ((⌊x * 100 + 1 / 2⌋ : ℤ) : ℚ) = 100 := by simpa using h'
        exact_mod_cast hcast
      have hfl := Int.le_floor.mp (le_of_eq h100.symm)
      push_cast at hfl
      linarith
    · intro h
      have hle : (100 : ℤ) ≤ ⌊x * 100 + 1 / 2⌋ := Int.le_floor.mpr (by push_cast; linarith)
      have hlt : ⌊x * 100 + 1 / 2⌋ < 101 := Int.floor_lt.mpr (by push_cast; linarith)
      have h100 : ⌊x * 100 + 1 / 2⌋ = 100 := by omega
      rw [h100]
      norm_num
  rw [key]
  constructor
  · intro h
    refine ⟨?_, ?_, ?_⟩
    · by_contra hs3
      have h2 : s ≤ 2 := by omega
      have h2q : (s : ℚ) ≤ 2 := by exact_mod_cast h2
      have : x ≤ 0.8 := by rw [hxdef]; norm_num; linarith
      linarith
    · by_contra hk6
      have h5 : k ≤ 5 := by omega
      have h5q : (k : ℚ) ≤ 5 := by exact_mod_cast h5
      have hm : min ((k : ℚ) / 6) 1 ≤ 5 / 6 :=
        le_trans (min_le_left _ _) (by linarith)
      have : x ≤ 29 / 30 := by rw [hxdef]; norm_num; linarith
      linarith
    · by_contra hL
      have h487 : L ≤ 487 := by omega
      have h487q : (L : ℚ) ≤ 487 := by exact_mod_cast h487
      have hm : min ((L : ℚ) / 500) 1 ≤ 487 / 500 :=
        le_trans (min_le_left _ _) (by linarith)
      have : x ≤ 2487 / 2500 := by rw [hxdef]; norm_num; linarith
      linarith
  · rintro ⟨rfl, rfl, hL⟩
    have hLq : (488 : ℚ) ≤ (L : ℚ) := by exact_mod_cast hL
    have hm : (488 / 500 : ℚ) ≤ min ((L : ℚ) / 500) 1 :=
      le_min (by linarith) (by norm_num)
    rw [hxdef]
    push_cast
    norm_num
    linarith

set_option maxRecDepth 100000 in
theorem c8_conf_eq_one : (extractData c8frags).confidence_score = 1 := by
  rw [extractData_conf]
  have hg : (extractGpaText (joinSep ' ' c8frags)).isSome = true := by decide
  have hn : (extractNameText (joinSep '\n' c8frags)).isSome = true := by decide
  have hb : (extractBalText (joinSep ' ' c8frags)).isSome = true := by decide
  have hL : (joinSep ' ' c8frags).length = 494 := by decide
  have hk : keywordCount (joinSep ' ' c8frags) = 6 := by decide
  rw [hg, hn, hb, hL, hk]
  simp only [if_true]
  unfold confCalc pyRound2
  rw [round_eq]
  norm_num [min_def]

/-!
## Claim theorems: totality and confidence (C7, C8, C10)
-/

/-- **C7**: `extract_data` is a total function of the fragment sequence
(no exception path exists in the embedding: an unmatched field is `none`),
and the confidence score always lies in [0, 1]. -/
theorem extract_total_confidence_bounds :
    ∀ fs : List Str, 0 ≤ (extractData fs).confidence_score
      ∧ (extractData fs).confidence_score ≤ 1 := by
  intro fs
  rw [extractData_conf]
  apply confCalc_bounds
  split_ifs <;> norm_num

set_option maxRecDepth 100000 in
/-- **C8 (counterexample)**: the rounded confidence reaches exactly 1.0 on
a fragment sequence whose raw text has length 494 < 500 (all three fields
populated and all six keywords present, so the unrounded total is 0.9976,
which rounds to 1.0), contradicting the claim that 1.0 requires
`len(rawText) >= 500`. -/
theorem confidence_one_below_500_cex :
    (extractData c8frags).confidence_score = 1
    ∧ (extractData c8frags).raw_text.length = 494 := by
  refine ⟨c8_conf_eq_one, ?_⟩
  rw [extractData_raw]
  decide

set_option maxRecDepth 100000 in
/-- **C8 (amended)**: the confidence equals exactly 1.0 iff all three
fields are populated, all six keywords are present, and
`len(rawText) >= 488` (the least length whose rounded total reaches 1.0;
saturation of the text-volume signal at 500 is not required). -/
theorem confidence_one_iff :
    ∀ fs : List Str,
      ((extractData fs).confidence_score = 1 ↔
        ((extractData fs).extracted_gpa.isSome = true
          ∧ (extractData fs).extracted_name.isSome = true
          ∧ (extractData fs).extracted_balance.isSome = true
          ∧ keywordCount (extractData fs).raw_text = 6
          ∧ 488 ≤ (extractData fs).raw_text.length)) := by
  intro fs
  rw [extractData_conf, extractData_gpa, extractData_name, extractData_balance,
    extractData_raw]
  have hs : (if (extractGpaText (joinSep ' ' fs)).isSome then 1 else 0)
      + (if (extractNameText (joinSep '\n' fs)).isSome then 1 else 0)
      + (if (extractBalText (joinSep ' ' fs)).isSome then 1 else 0) ≤ 3 := by
    split_ifs <;> norm_num
  have hk : keywordCount (joinSep ' ' fs) ≤ 6 := by
    unfold keywordCount
    refine le_trans (List.countP_le_length _) ?_
    rfl
  rw [confCalc_eq_one_iff _ _ _ hs hk]
  cases hg : (extractGpaText (joinSep ' ' fs)).isSome <;>
    cases hn : (extractNameText (joinSep '\n' fs)).isSome <;>
    cases hb : (extractBalText (joinSep ' ' fs)).isSome <;>
    simp [hg, hn, hb]

set_option maxRecDepth 100000 in
theorem confidence_one_iff_check :
    (extractData c8frags).extracted_gpa.isSome = true
    ∧ (extractData c8frags).extracted_name.isSome = true
    ∧ (extractData c8frags).extracted_balance.isSome = true
    ∧ keywordCount (extractData c8frags).raw_text = 6
    ∧ 488 ≤ (extractData c8frags).raw_text.length :=
  (confidence_one_iff c8frags).mp c8_conf_eq_one

/-- **C10**: on the empty fragment sequence, `extract_data` returns the
empty raw text, `none` for all three extracted fields, and confidence
exactly 0.0. -/
theorem extract_empty_record :
    (extractData []).raw_text = []
    ∧ (extractData []).extracted_gpa = none
    ∧ (extractData []).extracted_name = none
    ∧ (extractData []).extracted_balance = none
    ∧ (extractData []).confidence_score = 0 := by
  refine ⟨rfl, by decide, by decide, by decide, ?_⟩
  rw [extractData_conf]
  have hg : (extractGpaText (joinSep ' ' ([] : List Str))).isSome = false := by decide
  have hn : (extractNameText (joinSep '\n' ([] : List Str))).isSome = false := by decide
  have hb : (extractBalText (joinSep ' ' ([] : List Str))).isSome = false := by decide
  have hL : (joinSep ' ' ([] : List Str)).length = 0 := by decide
  have hk : keywordCount (joinSep ' ' ([] : List Str)) = 0 := by decide
  rw [hg, hn, hb, hL, hk]
  simp only [if_false, Bool.false_eq_true]
  unfold confCalc pyRound2
  rw [round_eq]
  norm_num [min_def]
